import Mathlib

/-!
# Verification of the departure-board pipeline (`oled.py`)

Shallow embedding of the departure-data pipeline and the time-field
rendering logic of the departure board program, together with proofs of
the specified properties.

Conventions of the embedding:
* Timestamps are ISO-8601 strings; instants are `Int` epoch seconds.
* `datetime.fromisoformat(s.replace("Z", "+00:00"))` is modelled by
  `parsePyDateTime : String → Option PyDateTime`, which keeps the
  microsecond value and whether the result is aware (has a UTC offset)
  or naive. Python compares two parsed datetimes only when both are
  aware or both naive; a mixed pair raises `TypeError`, modelled by
  the partial comparison `pyGT?`. Where a parsed value is subtracted
  from the aware `now` (the minutes computations), a naive value
  always raises, so those paths use the aware-only whole-second view
  `parseTS : String → Option Int`.
* A time zone is modelled as a fixed offset from UTC in seconds (the
  program's `ZoneInfo` value enters the pipeline only through
  `astimezone` in the "%H:%M" label of a stop summary).
* Python truthiness of an optional string field (`if s:` /
  `d.get(k) or ""`) is modelled explicitly: `none` and `some ""` are
  falsy.
* `int(x)` on a float quotient of whole seconds by `60` is `Int.tdiv`
  (truncation toward zero); Python `//` on ints is `Int.fdiv`.
-/

namespace DepartureBoard

/-! ## Timestamp parsing (model of `datetime.fromisoformat` on the
strings this program feeds it, after `.replace("Z", "+00:00")`) -/

/-- `s.replace("Z", "+00:00")`: every occurrence of the character `Z`
is replaced by the five characters `+00:00`. -/
def replaceZ (s : String) : String :=
  String.mk (s.toList.foldr
    (fun c acc =>
      if c = 'Z' then '+' :: '0' :: '0' :: ':' :: '0' :: '0' :: acc
      else c :: acc) [])

def digit? (c : Char) : Option Nat :=
  if c.isDigit then some (c.toNat - 48) else none

def digits2? (a b : Char) : Option Nat := do
  let x ← digit? a
  let y ← digit? b
  pure (10 * x + y)

def isLeap (y : Nat) : Bool :=
  (y % 4 == 0 && y % 100 != 0) || y % 400 == 0

def daysInMonth (y m : Nat) : Nat :=
  if m = 2 then (if isLeap y then 29 else 28)
  else if m = 4 ∨ m = 6 ∨ m = 9 ∨ m = 11 then 30
  else 31

/-- Days in the months `1 .. m-1` of year `y`. -/
def daysBeforeMonth (y m : Nat) : Nat :=
  (List.range (m - 1)).foldl (fun acc i => acc + daysInMonth y (i + 1)) 0

/-- Days from 1970-01-01 to `y-m-d` in the proleptic Gregorian calendar
(`y ≥ 1`); negative for dates before the epoch. -/
def daysSinceEpoch (y m d : Nat) : Int :=
  let yb := y - 1
  (Int.ofNat (yb * 365 + yb / 4 + yb / 400 + daysBeforeMonth y m + (d - 1)))
    - Int.ofNat (yb / 100) - 719162

/-- Read four decimal digits as a year. -/
def parseYear : List Char → Option (Nat × List Char)
  | y1 :: y2 :: y3 :: y4 :: rest => do
    let a ← digit? y1
    let b ← digit? y2
    let c ← digit? y3
    let d ← digit? y4
    pure (1000 * a + 100 * b + 10 * c + d, rest)
  | _ => none

/-- Read one expected separator character followed by two digits. -/
def sepDigits2 (sep : Char) : List Char → Option (Nat × List Char)
  | x :: a :: b :: rest =>
    if x = sep then (digits2? a b).map (fun n => (n, rest)) else none
  | _ => none

/-- Read a maximal run of decimal digits. -/
def takeDigits : List Char → List Nat × List Char
  | [] => ([], [])
  | c :: rest =>
    match digit? c with
    | some d =>
      match takeDigits rest with
      | (ds, r) => (d :: ds, r)
    | none => ([], c :: rest)

/-- Microseconds denoted by a fractional-seconds digit run: the first
six digits, right-padded with zeros (`fromisoformat` truncates longer
fractions to microsecond precision). -/
def fracUsec (ds : List Nat) : Nat :=
  ((ds ++ [0, 0, 0, 0, 0, 0]).take 6).foldl (fun acc d => acc * 10 + d) 0

/-- Read an optional fractional-seconds part: `.` or `,` followed by
at least one digit; absent fraction is zero microseconds. -/
def parseFrac : List Char → Option (Nat × List Char)
  | [] => some (0, [])
  | c :: rest =>
    if c = '.' ∨ c = ',' then
      match takeDigits rest with
      | ([], _) => none
      | (ds, r) => some (fracUsec ds, r)
    else some (0, c :: rest)

/-- Read a time of day as accepted by `fromisoformat`: `HH`, `HH:MM`,
or `HH:MM:SS` with an optional fractional-seconds part (fractions are
accepted only after seconds). Returns hours, minutes, seconds,
microseconds and the remaining input. -/
def parseTime : List Char → Option (Nat × Nat × Nat × Nat × List Char)
  | h1 :: h2 :: r1 => do
    let hh ← digits2? h1 h2
    match r1 with
    | ':' :: m1 :: m2 :: r2 => do
      let mi ← digits2? m1 m2
      match r2 with
      | ':' :: s1 :: s2 :: r3 => do
        let ss ← digits2? s1 s2
        match parseFrac r3 with
        | none => none
        | some (us, r4) => pure (hh, mi, ss, us, r4)
      | _ => pure (hh, mi, 0, 0, r2)
    | _ => pure (hh, 0, 0, 0, r1)
  | _ => none

/-- Read an optional UTC offset: `±HH:MM`, `±HHMM` or `±HH`, in
seconds (`Z` has already been expanded to `+00:00`). The outer `none`
is a malformed offset; the inner `none` means no offset was present
(a naive result). -/
def parseOffset : List Char → Option (Option Int × List Char)
  | [] => some (none, [])
  | c :: rest =>
    if c = '+' ∨ c = '-' then
      let sign : Int := if c = '+' then 1 else -1
      match rest with
      | h1 :: h2 :: ':' :: m1 :: m2 :: r => do
        let oh ← digits2? h1 h2
        let om ← digits2? m1 m2
        guard (om ≤ 59)
        pure (some (sign * Int.ofNat (oh * 3600 + om * 60)), r)
      | h1 :: h2 :: m1 :: m2 :: r => do
        let oh ← digits2? h1 h2
        let om ← digits2? m1 m2
        guard (om ≤ 59)
        pure (some (sign * Int.ofNat (oh * 3600 + om * 60)), r)
      | [h1, h2] => do
        let oh ← digits2? h1 h2
        pure (some (sign * Int.ofNat (oh * 3600)), [])
      | _ => none
    else some (none, c :: rest)

/-- Split a `fromisoformat` input into its fields: a `YYYY-MM-DD`
date, then optionally any single separator character followed by a
time of day and an optional UTC offset (year, month, day, hour,
minute, second, microsecond, offset seconds). Out of modelled scope
(documented simplifications): basic-format dates (`YYYYMMDD`), week
dates, ordinal dates, and offsets with a seconds component. -/
def parseDateTimeFields (cs : List Char) :
    Option (Nat × Nat × Nat × Nat × Nat × Nat × Nat × Option Int) := do
  let (y, r1) ← parseYear cs
  let (mo, r2) ← sepDigits2 '-' r1
  let (dd, r3) ← sepDigits2 '-' r2
  match r3 with
  | [] => pure (y, mo, dd, 0, 0, 0, 0, none)
  | _ :: r4 => do
    let (hh, mi, ss, us, r5) ← parseTime r4
    match parseOffset r5 with
    | none => none
    | some (off, r6) => do
      guard (r6 = [])
      pure (y, mo, dd, hh, mi, ss, us, off)

/-- The result of a successful `fromisoformat`: a comparison value in
microseconds and whether the datetime is aware (carries a UTC offset)
or naive. For an aware result `val` is the instant (offset already
subtracted); for a naive result it is the wall-clock reading mapped
monotonically to the same scale, which is exactly what Python's
naive-to-naive comparison orders by. -/
structure PyDateTime where
  val : Int
  aware : Bool
deriving DecidableEq, Repr

/-- Range validation performed by `fromisoformat` / the `datetime` and
`timezone` constructors (a timezone offset must be strictly between
-24h and +24h). -/
def pyFieldsValid (y mo dd hh mi ss : Nat) (off : Option Int) : Bool :=
  decide (1 ≤ y ∧ 1 ≤ mo ∧ mo ≤ 12 ∧ 1 ≤ dd ∧ dd ≤ daysInMonth y mo
    ∧ hh ≤ 23 ∧ mi ≤ 59 ∧ ss ≤ 59)
  && (match off with
      | none => true
      | some o => decide (-86400 < o ∧ o < 86400))

/-- Model of `datetime.fromisoformat(s.replace("Z", "+00:00"))`:
parse to a `PyDateTime`, `none` on the `ValueError` raised for a
malformed string or out-of-range field. -/
def parsePyDateTime (s : String) : Option PyDateTime :=
  match parseDateTimeFields (replaceZ s).toList with
  | none => none
  | some (y, mo, dd, hh, mi, ss, us, off) =>
    if pyFieldsValid y mo dd hh mi ss off then
      let wall : Int := (daysSinceEpoch y mo dd * 86400
        + Int.ofNat (hh * 3600 + mi * 60 + ss)) * 1000000 + Int.ofNat us
      match off with
      | none => some ⟨wall, false⟩
      | some o => some ⟨wall - o * 1000000, true⟩
    else none

/-- Python's `>` on two parsed datetimes: defined only when both are
aware or both are naive; comparing a naive with an aware value raises
`TypeError`, modelled as `none`. -/
def pyGT? (x y : PyDateTime) : Option Bool :=
  if x.aware == y.aware then some (decide (y.val < x.val)) else none

/-- The aware whole-second instant of a timestamp, `none` for a
malformed or naive string. This is the view used by the computations
that subtract the parsed value from the aware `now` (where a naive
value raises `TypeError`, caught by the surrounding handler); the
truncation to whole seconds does not change any clamped minute count
because `now` is modelled as whole seconds. -/
def parseTS (s : String) : Option Int :=
  match parsePyDateTime s with
  | none => none
  | some dt => if dt.aware then some (Int.fdiv dt.val 1000000) else none

/-! ## Time & Delay Calculator -/

/-- `max(int((t - now).total_seconds() / 60), 0)` for a parsed instant
`t`: minutes until arrival, truncated toward zero, clamped at 0. -/
def minutesOf (t now : Int) : Int :=
  max (Int.tdiv (t - now) 60) 0

/-- Minutes until the instant denoted by `ts`, or `none` if `ts` does
not parse (the exception path of the source). -/
def minutesUntil (ts : String) (now : Int) : Option Int :=
  (parseTS ts).map (fun t => minutesOf t now)

/-- The delay determination of `draw_board` (lines 231–243): a
departure is delayed iff both timestamp fields are truthy, both parse
under `fromisoformat`, and Python's `t_exp > t_aim` succeeds with
`true`. The two parsed values are compared only with each other, so a
naive/naive pair compares fine; a naive/aware pair raises `TypeError`
at the comparison, which — like any parse failure — is swallowed by
the surrounding `try/except` and yields `false`. -/
def isDelayed (aimed expected : Option String) : Bool :=
  match aimed, expected with
  | some a, some e =>
    if a == "" || e == "" then false
    else
      match parsePyDateTime a, parsePyDateTime e with
      | some ta, some te =>
        match pyGT? te ta with
        | some b => b
        | none => false
      | _, _ => false
  | _, _ => false

/-- The `try` block of the per-departure minute computation
(`draw_board` lines 276–293) for one optional timestamp field:
`Except.error` models an exception escaping to the handler, which in
the source resets *both* minute values to `None`. -/
def tryMinutes (s : Option String) (now : Int) : Except Unit (Option Int) :=
  match s with
  | none => .ok none
  | some str =>
    if str == "" then .ok none
    else
      match parseTS str with
      | some t => .ok (some (minutesOf t now))
      | none => .error ()

/-- `(mins_sched, mins_updated)` immediately after the `try/except`
block of `draw_board` (lines 276–298), before the fallback: an
exception in either parse leaves both values `None`. -/
def minutesPairPre (aimed expected : Option String) (now : Int) :
    Option Int × Option Int :=
  match tryMinutes aimed now with
  | .error _ => (none, none)
  | .ok ms =>
    match tryMinutes expected now with
    | .error _ => (none, none)
    | .ok mu => (ms, mu)

/-- The fallback of `draw_board` lines 300–304, executed sequentially:
first `mins_updated` copies `mins_sched` when absent, then
`mins_sched` copies the (possibly just assigned) `mins_updated`. -/
def applyFallback : Option Int × Option Int → Option Int × Option Int
  | (ms, mu) =>
    let mu' := if mu.isNone && ms.isSome then ms else mu
    let ms' := if ms.isNone && mu'.isSome then mu' else ms
    (ms', mu')

/-- `(mins_sched, mins_updated)` as used by the row renderer: the
`try/except` computation followed by the fallback. -/
def minutesPair (aimed expected : Option String) (now : Int) :
    Option Int × Option Int :=
  applyFallback (minutesPairPre aimed expected now)

/-! ## Raw calls and the Stop Query Adapter (`fetch_departures`) -/

/-- One estimated call as consumed by the pipeline (the fields of the
GraphQL `estimatedCalls` records that the program reads). `none`
models an absent JSON field. -/
structure Call where
  expectedArrivalTime : Option String
  aimedArrivalTime : Option String
  realtime : Bool
  frontText : Option String
  publicCode : String
  transportMode : Option String
deriving DecidableEq, Repr

/-- Python truthiness of an optional string field. -/
def truthyStr : Option String → Bool
  | none => false
  | some s => !(s == "")

/-- The possible shapes of one adapter response, as distinguished by
`fetch_departures`: a transport/exception failure, a GraphQL
`errors` payload, a `null` `stopPlace`, or a stop with an optional
name and its raw calls. -/
inductive FetchRaw where
  | requestError
  | graphqlErrors
  | notFound
  | stop (name : Option String) (calls : List Call)
deriving DecidableEq, Repr

/-- `fetch_departures` (lines 113–154), modelled on the already-decoded
response: failures collapse to the sentinel pairs `("Error", [])` /
`("Not Found", [])`; a successful response yields the stop name
(default `"Unknown Stop"`) and the calls whose `expectedArrivalTime`
is truthy. -/
def fetch_departures (raw : FetchRaw) : String × List Call :=
  match raw with
  | .requestError => ("Error", [])
  | .graphqlErrors => ("Error", [])
  | .notFound => ("Not Found", [])
  | .stop name calls =>
    (name.getD "Unknown Stop",
     calls.filter (fun c => truthyStr c.expectedArrivalTime))

/-! ## Departure Aggregator (`get_all_departures`) -/

/-- `get_all_departures` skips a stop whose reported name is one of the
in-band failure sentinels (line 167). -/
def sentinelName (n : String) : Bool :=
  n == "Not Found" || n == "Error"

/-- Python `min` over a list of strings (lexicographic by code point);
`none` models the `ValueError` raised on an empty sequence. -/
def minStr? : List String → Option String
  | [] => none
  | s :: rest =>
    match minStr? rest with
    | none => some s
    | some m => some (if s ≤ m then s else m)

/-- The truthy `expectedArrivalTime` of a call, if any (the filter of
the generator expression on line 174). -/
def truthyExpected (c : Call) : Option String :=
  match c.expectedArrivalTime with
  | none => none
  | some s => if s == "" then none else some s

/-- Zero-padded two-digit rendering of a field of `"%H:%M"`. -/
def pad2 (n : Nat) : String :=
  if n < 10 then "0" ++ toString n else toString n

/-- `strftime("%H:%M")` of the local instant `tLocal` (epoch seconds
already shifted by the zone offset). -/
def fmtHM (tLocal : Int) : String :=
  let secs := (tLocal % 86400).toNat
  pad2 (secs / 3600) ++ ":" ++ pad2 (secs % 3600 / 60)

/-- The `next_info` string of `get_all_departures` (lines 171–184):
`"<mins>m <HH:MM>"` for the lexicographically earliest truthy
`expectedArrivalTime`, or `""` when the stop has no calls, no truthy
timestamp (`min` raises), or the earliest timestamp does not parse to
an aware instant. `tz` is the zone offset from UTC in seconds.
(For a *naive* earliest timestamp CPython's `astimezone` would
interpret it in the host's system time zone — platform state outside
the model; such a timestamp is treated as a failure here.) -/
def nextInfo (calls : List Call) (tz now : Int) : String :=
  if calls.isEmpty then ""
  else
    match minStr? (calls.filterMap truthyExpected) with
    | none => ""
    | some earliest =>
      match parseTS earliest with
      | none => ""
      | some t =>
        toString (minutesOf t now) ++ "m " ++ fmtHM (t + tz)

/-- The summary string appended for one surviving stop
(lines 186–189). -/
def stopInfo (name : String) (calls : List Call) (tz now : Int) : String :=
  let ni := nextInfo calls tz now
  if ni == "" then name else name ++ " " ++ ni

/-- The per-stop loop of `get_all_departures` (lines 165–191): skip
sentinel-named results, otherwise append the stop's calls to the
departure list and its summary to the info list, in configured
order. -/
def gatherStops (tz now : Int) : List (String × List Call) → List Call × List String
  | [] => ([], [])
  | (name, calls) :: rest =>
    let (d, i) := gatherStops tz now rest
    if sentinelName name then (d, i)
    else (calls ++ d, stopInfo name calls tz now :: i)

/-- The sort key of line 194: `d.get("expectedArrivalTime") or ""`. -/
def sortKey (c : Call) : String :=
  c.expectedArrivalTime.getD ""

/-- The ascending comparison used by the final stable sort. -/
def depLE (a b : Call) : Bool :=
  decide (sortKey a ≤ sortKey b)

/-- `get_all_departures` (lines 160–198), modelled on the per-stop
adapter results (in configured order): gather surviving stops, then
stable-sort the concatenated departures by `sortKey`. -/
def get_all_departures (results : List (String × List Call)) (tz now : Int) :
    List Call × List String :=
  ((gatherStops tz now results).1.mergeSort depLE, (gatherStops tz now results).2)

/-- The calls of the non-sentinel results, concatenated in processing
order (the state of `deps` on line 193, before sorting). -/
def survivingCalls : List (String × List Call) → List Call
  | [] => []
  | (name, calls) :: rest =>
    if sentinelName name then survivingCalls rest
    else calls ++ survivingCalls rest

/-! ## Board Layout Engine fragments (`draw_board`) -/

/-- `header_text` (lines 225–227): join the stop summaries with
`" / "`, or the fallback title when there are none, truncated to 40
characters. -/
def joinSep (sep : String) : List String → String
  | [] => ""
  | [x] => x
  | x :: xs => x ++ sep ++ joinSep sep xs

/-- Python `s[:n]`: the first `n` characters. -/
def strTake (s : String) (n : Nat) : String :=
  String.mk (s.toList.take n)

def headerText (stopInfos : List String) : String :=
  strTake (if stopInfos.isEmpty then "Departure Board" else joinSep " / " stopInfos) 40

/-- One drawing instruction issued against the canvas. -/
inductive DrawOp where
  | text (x y : Int) (s : String)
  | line (x1 y1 x2 y2 : Int)
deriving DecidableEq, Repr

/-- `f"{m:>2}m"`: the minutes right-aligned in a two-character field
(space-padded on the left), followed by `m`. -/
def fmtMins (m : Int) : String :=
  let s := toString m
  String.mk (List.replicate (2 - s.length) ' ') ++ s ++ "m"

/-- The fixed x column of the time field (`col_time_x`). -/
def COL_TIME_X : Int := 200

/-- The right-hand time field of one departure row (`draw_board`
lines 313–338). `measure x y s` is the canvas's `textbbox((x, y), s)`
capability, returning `(x0, y0, x1, y1)`. -/
def renderTimeField (measure : Int → Int → String → Int × Int × Int × Int)
    (y : Int) (realtime : Bool) (mins_sched mins_updated : Option Int) :
    List DrawOp :=
  match realtime, mins_sched, mins_updated with
  | true, some s, some u =>
    if s = u then
      [DrawOp.text COL_TIME_X y (fmtMins u)]
    else
      let sched_text := fmtMins s
      let updated_text := fmtMins u
      let (b0, b1, b2, b3) := measure COL_TIME_X y sched_text
      let mid_y := Int.fdiv (b1 + b3) 2
      [DrawOp.text COL_TIME_X y sched_text,
       DrawOp.line b0 mid_y b2 mid_y,
       DrawOp.text (b2 + 4) y updated_text]
  | _, _, mu => [DrawOp.text COL_TIME_X y (fmtMins (mu.getD 0))]

/-- The time-field rule as worded by the specification: if the
departure is realtime-sourced and both minute values are present and
they differ, render the scheduled minutes at x=200, strike a
horizontal line through the vertical midpoint of their measured
bounding box spanning that box, and render the updated minutes 4
pixels to the right of that box; otherwise render only the updated
minutes (or 0 if absent) at x=200. -/
def renderTimeFieldSpec (measure : Int → Int → String → Int × Int × Int × Int)
    (y : Int) (realtime : Bool) (ms mu : Option Int) : List DrawOp :=
  if realtime && ms.isSome && mu.isSome && decide (ms ≠ mu) then
    let schedTxt := fmtMins (ms.getD 0)
    let (b0, b1, b2, b3) := measure COL_TIME_X y schedTxt
    let mid := Int.fdiv (b1 + b3) 2
    [DrawOp.text COL_TIME_X y schedTxt,
     DrawOp.line b0 mid b2 mid,
     DrawOp.text (b2 + 4) y (fmtMins (mu.getD 0))]
  else
    [DrawOp.text COL_TIME_X y (fmtMins (mu.getD 0))]

/-! ## Refresh Scheduler (`__main__` loop, lines 360–369) -/

/-- The minute pair computed by `draw_board` for one departure row,
from the wall-clock snapshot `now` captured at line 216 of that same
call. -/
def rowMinutes (c : Call) (now : Int) : Option Int × Option Int :=
  minutesPair c.aimedArrivalTime c.expectedArrivalTime now

/-- The minute pairs of the at most `numDisplay` rendered rows of one
`draw_board` call with snapshot `now`. -/
def drawMinutes (deps : List Call) (numDisplay : Nat) (now : Int) :
    List (Option Int × Option Int) :=
  (deps.take numDisplay).map (fun c => rowMinutes c now)

/-- The scheduler state: the cached aggregation results and the next
fetch deadline. -/
structure LoopState where
  nextFetch : Int
  cachedDeps : List Call
  cachedInfos : List String
deriving DecidableEq, Repr

/-- One iteration of the main loop at wall-clock time `t`: refetch via
the adapter when the deadline has passed (`now >= next_fetch`), then
render the cached departures; `draw_board` captures its own snapshot
(line 216), modelled as the iteration time `t`. Returns the new state
and the minute pairs of the rendered rows. -/
def loopTick (results : List (String × List Call)) (refreshS tz : Int)
    (numDisplay : Nat) (t : Int) (st : LoopState) :
    LoopState × List (Option Int × Option Int) :=
  let st' :=
    if st.nextFetch ≤ t then
      { nextFetch := t + refreshS,
        cachedDeps := (get_all_departures results tz t).1,
        cachedInfos := (get_all_departures results tz t).2 }
    else st
  (st', drawMinutes st'.cachedDeps numDisplay t)

/-! ## Concrete sample data used to instantiate the theorems -/

/-- A realtime call, expected 10:05Z, aimed 10:00Z. -/
def sampleCall : Call :=
  ⟨some "2024-01-01T10:05:00Z", some "2024-01-01T10:00:00Z", true,
   some "Centrum", "11", some "tram"⟩

/-- A call with no `expectedArrivalTime`. -/
def sampleNoExpected : Call :=
  ⟨none, some "2024-01-01T10:00:00Z", false, none, "7", none⟩

/-- A call whose `expectedArrivalTime` is a non-empty unparseable string. -/
def sampleUnparseable : Call :=
  ⟨some "zzz", none, false, none, "9", none⟩

/-- A call expected at 10:02Z. -/
def sampleEarly : Call :=
  ⟨some "2024-01-01T10:02:00Z", none, false, none, "5", some "bus"⟩

/-- Epoch seconds of 2024-01-01T10:00:00Z. -/
def sampleNow : Int := 1704103200

/-! ## Theorems -/

/-- C3. The delay determination is true exactly when both timestamp
strings are present, both parse under `fromisoformat`, and the
expected value compares strictly later than the aimed value under
Python's `>` (which is defined for aware/aware and naive/naive pairs
and raises on a mixed pair); any absence, parse failure or comparison
failure yields `false`, and no error propagates (the computation is a
total Boolean function — every exception path lands in the
surrounding handler). -/
theorem C3_isDelayed_iff (aimed expected : Option String) :
    isDelayed aimed expected = true ↔
      ∃ a e ta te, aimed = some a ∧ expected = some e ∧
        parsePyDateTime a = some ta ∧ parsePyDateTime e = some te ∧
        pyGT? te ta = some true := by
  have hempty : parsePyDateTime "" = none := by decide
  cases aimed with
  | none => simp [isDelayed]
  | some a =>
    cases expected with
    | none => simp [isDelayed]
    | some e =>
      by_cases ha : a = ""
      · subst ha
        simp only [isDelayed, beq_self_eq_true, Bool.true_or, if_true]
        constructor
        · intro h; exact absurd h (by simp)
        · rintro ⟨a', e', ta, te, ha', he', hpa, hpe, hgt⟩
          cases ha'; rw [hempty] at hpa; cases hpa
      · by_cases he : e = ""
        · subst he
          have hc : (a == "" || "" == "") = true := by simp
          simp only [isDelayed, hc, if_true]
          constructor
          · intro h; exact absurd h (by simp)
          · rintro ⟨a', e', ta, te, ha', he', hpa, hpe, hgt⟩
            cases he'; rw [hempty] at hpe; cases hpe
        · have hcond : (a == "" || e == "") = false := by
            simp [ha, he]
          simp only [isDelayed, hcond, Bool.false_eq_true, if_false]
          cases hpa : parsePyDateTime a with
          | none =>
            constructor
            · intro h; exact absurd h (by simp)
            · rintro ⟨a', e', ta, te, ha', he', hpa', hpe', hgt⟩
              cases ha'; rw [hpa] at hpa'; cases hpa'
          | some ta =>
            cases hpe : parsePyDateTime e with
            | none =>
              constructor
              · intro h; exact absurd h (by simp)
              · rintro ⟨a', e', ta', te, ha', he', hpa', hpe', hgt⟩
                cases he'; rw [hpe] at hpe'; cases hpe'
            | some te =>
              change (match pyGT? te ta with
                  | some b => b
                  | none => false) = true ↔ _
              cases hgt : pyGT? te ta with
              | none =>
                constructor
                · intro h; exact absurd h (by simp)
                · rintro ⟨a', e', ta', te', ha', he', hpa', hpe', hgt'⟩
                  cases ha'; cases he'
                  rw [hpa] at hpa'; cases hpa'
                  rw [hpe] at hpe'; cases hpe'
                  rw [hgt] at hgt'; cases hgt'
              | some b =>
                constructor
                · intro hb
                  have hb' : b = true := hb
                  exact ⟨a, e, ta, te, rfl, rfl, hpa, hpe, by rw [hgt, hb']⟩
                · rintro ⟨a', e', ta', te', ha', he', hpa', hpe', hgt'⟩
                  cases ha'; cases he'
                  rw [hpa] at hpa'; cases hpa'
                  rw [hpe] at hpe'; cases hpe'
                  rw [hgt] at hgt'
                  injection hgt' with hb

/-- C3 witness: a naive/naive pair one hour apart (Python compares
the two naive values directly) and an aware pair half a second apart
(fractional seconds accepted by `fromisoformat`) are both determined
delayed. -/
theorem C3_isDelayed_iff_witness :
    isDelayed (some "2024-01-01T10:00:00") (some "2024-01-01T11:00:00") = true
    ∧ isDelayed (some "2024-01-01T10:00:00Z") (some "2024-01-01T10:00:00.500000Z") = true :=
  ⟨(C3_isDelayed_iff _ _).mpr
    ⟨"2024-01-01T10:00:00", "2024-01-01T11:00:00",
     ⟨1704103200000000, false⟩, ⟨1704106800000000, false⟩,
     rfl, rfl, by decide, by decide, by decide⟩,
   (C3_isDelayed_iff _ _).mpr
    ⟨"2024-01-01T10:00:00Z", "2024-01-01T10:00:00.500000Z",
     ⟨1704103200000000, true⟩, ⟨1704103200500000, true⟩,
     rfl, rfl, by decide, by decide, by decide⟩⟩

/-- C4. For a timestamp that parses to the instant `t`, the
minutes-until computation subtracts `now`, divides by 60 truncating
toward zero, and clamps at 0; hence the result is never negative, and
a timestamp in the past yields 0. -/
theorem C4_minutesUntil_clamped (ts : String) (now t : Int)
    (h : parseTS ts = some t) :
    minutesUntil ts now = some (max (Int.tdiv (t - now) 60) 0)
    ∧ (∀ m, minutesUntil ts now = some m → 0 ≤ m)
    ∧ (t ≤ now → minutesUntil ts now = some 0) := by
  refine ⟨by simp [minutesUntil, h, minutesOf], ?_, ?_⟩
  · intro m hm
    simp only [minutesUntil, h, Option.map_some', Option.some.injEq, minutesOf] at hm
    rw [← hm]
    exact le_max_right _ _
  · intro hle
    have hneg : Int.tdiv (t - now) 60 ≤ 0 := by
      have h1 : 0 ≤ Int.tdiv (now - t) 60 :=
        Int.tdiv_nonneg (by omega) (by norm_num)
      have h2 : Int.tdiv (t - now) 60 = -Int.tdiv (now - t) 60 := by
        rw [show t - now = -(now - t) by ring, Int.neg_tdiv]
      omega
    simp [minutesUntil, h, minutesOf, max_eq_right hneg]

/-- C4 witness: a timestamp 61 seconds in the past yields 0 minutes. -/
theorem C4_minutesUntil_clamped_witness :
    minutesUntil "2024-01-01T10:00:00Z" (sampleNow + 61) = some 0 :=
  (C4_minutesUntil_clamped "2024-01-01T10:00:00Z" (sampleNow + 61) 1704103200
    (by decide)).2.2 (by decide)

/-- C5. The fallback after the minute computation: if exactly one of
the two minute values is present, the absent one takes the present
one's value; whenever either was absent before the fallback, the two
values agree afterwards. -/
theorem C5_fallback_symmetry (aimed expected : Option String) (now : Int) (v : Int) :
    ((minutesPairPre aimed expected now = (some v, none)
        ∨ minutesPairPre aimed expected now = (none, some v)) →
      minutesPair aimed expected now = (some v, some v))
    ∧ ((minutesPairPre aimed expected now).1 = none
        ∨ (minutesPairPre aimed expected now).2 = none →
      (minutesPair aimed expected now).1 = (minutesPair aimed expected now).2) := by
  rcases hp : minutesPairPre aimed expected now with ⟨ms, mu⟩
  simp only [minutesPair, hp]
  constructor
  · rintro (h | h) <;>
      (rw [Prod.mk.injEq] at h; rcases h with ⟨h1, h2⟩; subst h1; subst h2) <;>
      simp [applyFallback]
  · intro h
    rcases ms with _ | a <;> rcases mu with _ | b <;>
      simp_all [applyFallback]

/-- C5 witness: an aimed-only departure (expected absent) ends with
both minute values equal to the scheduled 5 minutes. -/
theorem C5_fallback_symmetry_witness :
    minutesPair (some "2024-01-01T10:05:00Z") none sampleNow = (some 5, some 5) :=
  (C5_fallback_symmetry (some "2024-01-01T10:05:00Z") none sampleNow 5).1
    (Or.inl (by decide))

/-- C10. The rendered header is the literal fallback "Departure Board"
when there are no stop summaries, and otherwise the " / "-join of the
summaries truncated to 40 characters. -/
theorem C10_header_fallback (infos : List String) :
    (infos = [] → headerText infos = "Departure Board")
    ∧ (infos ≠ [] → headerText infos = strTake (joinSep " / " infos) 40) := by
  constructor
  · rintro rfl; decide
  · intro h
    cases infos with
    | nil => exact absurd rfl h
    | cons a l => rfl

/-- C10 witness: the empty-summaries header and a one-summary header. -/
theorem C10_header_fallback_witness :
    headerText [] = "Departure Board" ∧ headerText ["A 5m 10:05"] = "A 5m 10:05" :=
  ⟨(C10_header_fallback []).1 rfl,
   by rw [(C10_header_fallback ["A 5m 10:05"]).2 (by simp)]; decide⟩

/-- C2. The time field of a departure row renders exactly as the
specification words it: when the departure is realtime-sourced and
both minute values are present and differ, the scheduled minutes are
drawn at x=200, struck through horizontally at the vertical midpoint
of their measured bounding box and spanning it, with the updated
minutes 4 pixels to the right of that box; otherwise only the updated
minutes (0 when absent) are drawn at x=200. -/
theorem C2_timeField_matches_spec
    (measure : Int → Int → String → Int × Int × Int × Int)
    (y : Int) (realtime : Bool) (ms mu : Option Int) :
    renderTimeField measure y realtime ms mu
      = renderTimeFieldSpec measure y realtime ms mu := by
  cases realtime with
  | false =>
    cases ms <;> cases mu <;> simp [renderTimeField, renderTimeFieldSpec]
  | true =>
    cases ms with
    | none => cases mu <;> simp [renderTimeField, renderTimeFieldSpec]
    | some s =>
      cases mu with
      | none => simp [renderTimeField, renderTimeFieldSpec]
      | some u =>
        by_cases h : s = u
        · subst h
          simp [renderTimeField, renderTimeFieldSpec]
        · have hne : (some s ≠ some u) := by simpa using h
          rcases hm : measure COL_TIME_X y (fmtMins s) with ⟨b0, b1, b2, b3⟩
          simp [renderTimeField, renderTimeFieldSpec, h, hne, hm]

/-- Skipping lemma: a sentinel-named result contributes nothing to the
gathered lists. -/
theorem gatherStops_skip (tz now : Int) (nm : String) (cs : List Call)
    (h : sentinelName nm = true) :
    ∀ xs ys, gatherStops tz now (xs ++ (nm, cs) :: ys) = gatherStops tz now (xs ++ ys)
  | [], ys => by simp [gatherStops, h]
  | (n2, c2) :: xs, ys => by
    have ih := gatherStops_skip tz now nm cs h xs ys
    simp only [List.cons_append, gatherStops]
    simp only [List.append_eq]
    rw [ih]

/-- C6. A stop for which the adapter reports "Not Found" or "Error"
contributes nothing to either output of the aggregation, and the
remaining stops are processed exactly as if it were absent. -/
theorem C6_failed_stop_skipped (xs ys : List (String × List Call)) (nm : String)
    (cs : List Call) (tz now : Int) (h : nm = "Not Found" ∨ nm = "Error") :
    get_all_departures (xs ++ (nm, cs) :: ys) tz now
      = get_all_departures (xs ++ ys) tz now := by
  have hs : sentinelName nm = true := by
    rcases h with h | h <;> simp [h, sentinelName]
  simp [get_all_departures, gatherStops_skip tz now nm cs hs xs ys]

/-- C6 witness: an erroring stop between two healthy stops changes
nothing. -/
theorem C6_failed_stop_skipped_witness :
    get_all_departures
        ([("A", [sampleCall])] ++ ("Error", [sampleEarly]) :: [("B", [sampleEarly])]) 0 sampleNow
      = get_all_departures ([("A", [sampleCall])] ++ [("B", [sampleEarly])]) 0 sampleNow :=
  C6_failed_stop_skipped [("A", [sampleCall])] [("B", [sampleEarly])]
    "Error" [sampleEarly] 0 sampleNow (Or.inr rfl)

/-- C9. Failure is signalled in-band: a *successful* adapter response
whose stop name is literally "Not Found" or "Error" is
indistinguishable from a failure, so the aggregation skips the stop
entirely even though it carries calls. -/
theorem C9_sentinel_name_skipped (name : String) (calls : List Call) (tz now : Int)
    (h : name = "Not Found" ∨ name = "Error") :
    (fetch_departures (FetchRaw.stop (some name) calls)).1 = name
    ∧ get_all_departures [fetch_departures (FetchRaw.stop (some name) calls)] tz now
        = ([], []) := by
  have hs : sentinelName name = true := by
    rcases h with h | h <;> simp [h, sentinelName]
  refine ⟨rfl, ?_⟩
  simp [get_all_departures, fetch_departures, gatherStops, hs]

/-- C9 witness: a stop really named "Error" carrying a valid call is
dropped wholesale. -/
theorem C9_sentinel_name_skipped_witness :
    get_all_departures [fetch_departures (FetchRaw.stop (some "Error") [sampleCall])] 0 sampleNow
      = ([], []) :=
  (C9_sentinel_name_skipped "Error" [sampleCall] 0 sampleNow (Or.inr rfl)).2

/-- Every call gathered from the per-stop results came from some
result's call list. -/
theorem mem_gatherStops_fst {tz now : Int} :
    ∀ {rs : List (String × List Call)} {c : Call},
      c ∈ (gatherStops tz now rs).1 → ∃ p ∈ rs, c ∈ p.2
  | [], c, h => by simp [gatherStops] at h
  | (nm, cs) :: rs, c, h => by
    simp only [gatherStops] at h
    by_cases hs : sentinelName nm = true
    · rw [if_pos hs] at h
      obtain ⟨p, hp, hcp⟩ := mem_gatherStops_fst h
      exact ⟨p, List.mem_cons_of_mem _ hp, hcp⟩
    · rw [if_neg hs] at h
      rcases List.mem_append.mp h with hc | hc
      · exact ⟨(nm, cs), List.mem_cons_self _ _, hc⟩
      · obtain ⟨p, hp, hcp⟩ := mem_gatherStops_fst hc
        exact ⟨p, List.mem_cons_of_mem _ hp, hcp⟩

/-- Untruthy-expected calls yield nothing for the next-arrival
minimum. -/
theorem filterMap_truthyExpected_filter (l : List Call) :
    l.filterMap truthyExpected
      = (l.filter (fun c => truthyStr c.expectedArrivalTime)).filterMap truthyExpected := by
  induction l with
  | nil => rfl
  | cons c l ih =>
    by_cases hc : truthyStr c.expectedArrivalTime = true
    · simp [List.filter_cons, hc, List.filterMap_cons, ih]
    · have hnone : truthyExpected c = none := by
        unfold truthyExpected
        unfold truthyStr at hc
        cases hx : c.expectedArrivalTime with
        | none => rfl
        | some s =>
          rw [hx] at hc
          have hs : s = "" := by simpa using hc
          simp [hs]
      simp [List.filter_cons, hc, List.filterMap_cons, hnone, ih]

/-- C7. A raw call without a truthy `expectedArrivalTime` is discarded
before entering the pipeline: every call surviving `fetch_departures`
has one, hence so does every aggregated departure; and the
next-arrival label computation is unchanged by removing the untruthy
calls. -/
theorem C7_no_expected_discarded (raw : FetchRaw) (raws : List FetchRaw)
    (calls : List Call) (tz now : Int) :
    (∀ c ∈ (fetch_departures raw).2, truthyStr c.expectedArrivalTime = true)
    ∧ (∀ c ∈ (get_all_departures (raws.map fetch_departures) tz now).1,
        truthyStr c.expectedArrivalTime = true)
    ∧ nextInfo calls tz now
        = nextInfo (calls.filter (fun c => truthyStr c.expectedArrivalTime)) tz now := by
  have hfetch : ∀ (r : FetchRaw), ∀ c ∈ (fetch_departures r).2,
      truthyStr c.expectedArrivalTime = true := by
    intro r c hc
    cases r with
    | requestError => simp [fetch_departures] at hc
    | graphqlErrors => simp [fetch_departures] at hc
    | notFound => simp [fetch_departures] at hc
    | stop name cs =>
      simp only [fetch_departures] at hc
      exact (List.mem_filter.mp hc).2
  refine ⟨hfetch raw, ?_, ?_⟩
  · intro c hc
    rw [get_all_departures] at hc
    simp only [List.mem_mergeSort] at hc
    obtain ⟨p, hp, hcp⟩ := mem_gatherStops_fst hc
    obtain ⟨r, _, hr⟩ := List.mem_map.mp hp
    subst hr
    exact hfetch r c hcp
  · cases hc : calls with
    | nil => rfl
    | cons a l =>
      rw [nextInfo, nextInfo, filterMap_truthyExpected_filter]
      cases hf : (a :: l).filter (fun c => truthyStr c.expectedArrivalTime) with
      | nil => simp [minStr?]
      | cons b m => simp

/-- C7 witness: the call with an absent `expectedArrivalTime` is
filtered out of a fetch result that also carries a valid call. -/
theorem C7_no_expected_discarded_witness :
    truthyStr sampleCall.expectedArrivalTime = true :=
  (C7_no_expected_discarded (FetchRaw.stop (some "S") [sampleCall, sampleNoExpected])
      [] [] 0 0).1 sampleCall (by decide)

/-- The departures gathered by the per-stop loop are exactly the
surviving calls in processing order. -/
theorem gatherStops_fst (tz now : Int) :
    ∀ rs : List (String × List Call), (gatherStops tz now rs).1 = survivingCalls rs
  | [] => rfl
  | (nm, cs) :: rs => by
    simp only [gatherStops, survivingCalls]
    cases hs : sentinelName nm <;> simp [hs, gatherStops_fst tz now rs]

theorem depLE_le {a b : Call} (h : depLE a b = true) : sortKey a ≤ sortKey b :=
  of_decide_eq_true h

theorem depLE_trans : ∀ (a b c : Call), depLE a b → depLE b c → depLE a c :=
  fun _ _ _ hab hbc => decide_eq_true (le_trans (depLE_le hab) (depLE_le hbc))

theorem depLE_total : ∀ (a b : Call), depLE a b || depLE b a := by
  intro a b
  rcases le_total (sortKey a) (sortKey b) with h | h <;> simp [depLE, h]

/-- `mergeSort` on a two-element list compares once. -/
theorem mergeSort_pair {α : Type} (a b : α) (le : α → α → Bool) :
    List.mergeSort [a, b] le = if le a b then [a, b] else [b, a] := by
  rw [List.mergeSort]
  simp [List.splitInTwo, List.splitAt_eq, List.merge]

/-- C1 counterexample to the claim as stated: an *unparseable*
non-empty `expectedArrivalTime` does not sort as the empty string
(first); the sort key is the raw string, so `"zzz"` sorts after a
parseable 2024 timestamp. -/
theorem C1_claim_counterexample :
    parseTS "zzz" = none
    ∧ (get_all_departures [("A", [sampleUnparseable]), ("B", [sampleEarly])] 0 sampleNow).1
        = [sampleEarly, sampleUnparseable]
    ∧ (get_all_departures [("A", [sampleUnparseable]), ("B", [sampleEarly])] 0 sampleNow).1
        ≠ [sampleUnparseable, sampleEarly] := by
  have hg : (gatherStops 0 sampleNow [("A", [sampleUnparseable]), ("B", [sampleEarly])]).1
      = [sampleUnparseable, sampleEarly] := by decide
  have hd : depLE sampleUnparseable sampleEarly = false := by
    refine decide_eq_false ?_
    show ¬ (sortKey sampleUnparseable ≤ sortKey sampleEarly)
    rw [String.le_iff_toList_le]
    decide
  have heq : (get_all_departures [("A", [sampleUnparseable]), ("B", [sampleEarly])] 0 sampleNow).1
      = [sampleEarly, sampleUnparseable] := by
    simp only [get_all_departures, hg]
    rw [mergeSort_pair, hd]
    simp
  refine ⟨by decide, heq, ?_⟩
  rw [heq]
  decide

/-- C1 amended: the aggregated departures are a permutation of the
concatenated surviving calls, sorted ascending by the raw
`expectedArrivalTime` string (missing ⇒ `""`), and the sort is stable:
for every key value the calls with that key keep their concatenation
order. An unparseable non-empty timestamp sorts by its literal string
value, not first. -/
theorem C1_sorted_stable (results : List (String × List Call)) (tz now : Int) :
    ((get_all_departures results tz now).1).Perm (survivingCalls results)
    ∧ List.Pairwise (fun a b => sortKey a ≤ sortKey b) (get_all_departures results tz now).1
    ∧ ∀ k : String,
        ((get_all_departures results tz now).1).filter (fun c => sortKey c == k)
          = (survivingCalls results).filter (fun c => sortKey c == k) := by
  have hfst : (get_all_departures results tz now).1
      = (survivingCalls results).mergeSort depLE := by
    simp only [get_all_departures, gatherStops_fst]
  refine ⟨?_, ?_, ?_⟩
  · rw [hfst]; exact List.mergeSort_perm _ _
  · rw [hfst]
    exact (List.sorted_mergeSort depLE_trans depLE_total
      (survivingCalls results)).imp (fun hab => depLE_le hab)
  · intro k
    rw [hfst]
    have hsub0 : List.Sublist
        ((survivingCalls results).filter (fun c => sortKey c == k))
        (survivingCalls results) := List.filter_sublist _
    have hpw : ((survivingCalls results).filter (fun c => sortKey c == k)).Pairwise
        (fun a b => depLE a b = true) := by
      apply List.pairwise_of_forall_mem_list
      intro a ha b hb
      have hka : sortKey a = k := by simpa using (List.mem_filter.mp ha).2
      have hkb : sortKey b = k := by simpa using (List.mem_filter.mp hb).2
      exact decide_eq_true (le_of_eq (hka.trans hkb.symm))
    have h1 := List.sublist_mergeSort depLE_trans depLE_total hpw hsub0
    have h2 := h1.filter (fun c => sortKey c == k)
    rw [List.filter_filter] at h2
    simp only [Bool.and_self] at h2
    have hlen : (((survivingCalls results).mergeSort depLE).filter
          (fun c => sortKey c == k)).length
        = ((survivingCalls results).filter (fun c => sortKey c == k)).length :=
      ((List.mergeSort_perm (survivingCalls results) depLE).filter _).length_eq
    exact (h2.eq_of_length hlen.symm).symm

/-! ## C8: the refresh-cycle model at concrete inputs -/

def c8Results : List (String × List Call) := [("A", [sampleCall])]

/-- The loop state after the fetch at t = 10:00:00Z. -/
def c8St1 : LoopState :=
  (loopTick c8Results 30 0 3 1704103200 ⟨0, [], []⟩).1

/-- C8 counterexample to the claim as stated: the minute values are
*not* derived once per refresh cycle — `draw_board` recomputes them at
every render from a fresh wall-clock snapshot. Two renders of the same
cached snapshot inside one 30-second cycle (t = 10:00:00Z and
t = 10:00:29Z) show different updated minutes (5, then 4). -/
theorem C8_claim_counterexample :
    c8St1.cachedDeps = [sampleCall]
    ∧ c8St1.nextFetch = 1704103230
    ∧ (loopTick c8Results 30 0 3 1704103200 ⟨0, [], []⟩).2 = [(some 0, some 5)]
    ∧ (loopTick c8Results 30 0 3 1704103229 c8St1).1 = c8St1
    ∧ (loopTick c8Results 30 0 3 1704103229 c8St1).2 = [(some 0, some 4)] := by
  have hga : get_all_departures c8Results 0 1704103200 = ([sampleCall], ["A 5m 10:05"]) := by
    have h1 : gatherStops 0 1704103200 c8Results = ([sampleCall], ["A 5m 10:05"]) := by
      decide
    simp only [get_all_departures, h1]
    simp
  have htick1 : loopTick c8Results 30 0 3 1704103200 ⟨0, [], []⟩
      = (⟨1704103230, [sampleCall], ["A 5m 10:05"]⟩, [(some 0, some 5)]) := by
    simp only [loopTick]
    rw [if_pos (by decide)]
    simp only [hga]
    refine Prod.ext rfl ?_
    decide
  have hst1 : c8St1 = ⟨1704103230, [sampleCall], ["A 5m 10:05"]⟩ := by
    rw [c8St1, htick1]
  have htick2 : loopTick c8Results 30 0 3 1704103229 c8St1
      = (c8St1, [(some 0, some 4)]) := by
    rw [hst1]
    simp only [loopTick]
    rw [if_neg (by decide)]
    refine Prod.ext rfl ?_
    decide
  refine ⟨by rw [hst1], by rw [hst1], ?_, ?_, ?_⟩
  · rw [htick1]
  · rw [htick2]
  · rw [htick2]

/-- C8 amended: per-departure minute values are recomputed at *every*
render, from the wall-clock snapshot captured by that render; between
fetch deadlines the cached aggregation data is untouched, so within a
cycle only the render-time snapshot varies. -/
theorem C8_amended_recomputed_per_render (results : List (String × List Call))
    (refreshS tz : Int) (numDisplay : Nat) (t : Int) (st : LoopState)
    (h : t < st.nextFetch) :
    loopTick results refreshS tz numDisplay t st
      = (st, drawMinutes st.cachedDeps numDisplay t) := by
  simp only [loopTick]
  rw [if_neg (by omega)]

/-- C8 amended witness: a render strictly before the fetch deadline
leaves the state unchanged. -/
theorem C8_amended_recomputed_per_render_witness :
    loopTick [] 30 0 3 5 ⟨10, [], []⟩ = (⟨10, [], []⟩, []) :=
  C8_amended_recomputed_per_render [] 30 0 3 5 ⟨10, [], []⟩ (by decide)

end DepartureBoard
